import Mathlib

/-
  Verification development for the ModelRunner authentication and
  API-client authorization subsystem.

  The Rust sources are embedded shallowly:
  - strings that need structural reasoning (ids, secrets, tokens) are lists
    of characters (abbrev Str);
  - the SQLite store is an explicit record of rows; every query consumes one
    slot of an explicit fault schedule so that storage failures part-way
    through a sequence of writes are expressible;
  - fallible Rust code returns an explicit result type; a reachable
    unreachable result is modelled as a distinguished outcome, never hidden;
  - Argon2 hashing and the CSPRNG are abstracted: an Auth value carries the
    hash and verify functions, and fresh random draws are passed as
    arguments.

  Where a repository type referenced by main.rs is absent from the sources
  (the bitset Permission vocabulary and the AuthToken type), the definition
  is modelled from the specification and its doc comment says so.
-/

namespace ModelRunner

/-- Character-list strings, used for ids, secrets, keys and names. -/
abbrev Str := List Char

/-- Coercion helper from Lean string literals to the character-list strings. -/
def str (s : String) : Str := s.toList

/-- The Argon2-backed credential hasher of src/api/auth.rs, abstracted: the
source wraps argon2::Argon2 whose hash_password and verify_password methods
are modelled as the two function fields. -/
structure Auth where
  hashPassword : Str → Str
  verifyPassword : Str → Str → Bool

/-- Rust str::split on a single separator character: the list of segments
between occurrences of the separator, with empty segments preserved, as
produced by the iterator that extract_id_key consumes. -/
def splitOnChar (sep : Char) : Str → List Str
  | [] => [[]]
  | c :: cs =>
    if c = sep then [] :: splitOnChar sep cs
    else
      match splitOnChar sep cs with
      | [] => [[c]]
      | g :: gs => (c :: g) :: gs

/-- Failure of token parsing: the anyhow error with message text
Invalid format for key raised by extract_id_key. -/
inductive KeyError
  | invalidFormat
deriving DecidableEq, Repr

/-- extract_id_key from src/api/auth.rs lines 124-130 (an identical copy
lives in src/auth.rs lines 112-118): split the presented key on the
underscore character and take the first two elements of the iterator,
failing when either next() call yields nothing. -/
def extract_id_key (key : Str) : Except KeyError (Str × Str) :=
  let parts := splitOnChar '_' key
  match parts[0]? with
  | none => .error .invalidFormat
  | some id =>
    match parts[1]? with
    | none => .error .invalidFormat
    | some k => .ok (id, k)

/-! ## The persistent client store, from src/api/client.rs and src/api/auth.rs -/

/-- The discrete permission vocabulary of src/api/client.rs lines 49-56
(duplicated in src/api/api_client.rs lines 52-59). -/
inductive Permission
  | use | status | create | delete | update
deriving DecidableEq, Repr

/-- The Into i64 conversion of src/api/client.rs lines 85-96. -/
def Permission.toI64 : Permission → Int
  | .use => 1
  | .status => 2
  | .create => 3
  | .delete => 4
  | .update => 5

/-- Outcome of a conversion that the source writes with a reachable
unreachable arm: either a value, or the process aborts. -/
inductive PanicOr (α : Type)
  | panic
  | value (a : α)
deriving DecidableEq, Repr

/-- The From i64 conversion of src/api/client.rs lines 111-122 (duplicated
in src/api/api_client.rs lines 86-97): values 1 to 5 decode to the five
permissions; every other stored value falls into the unreachable arm, which
aborts the process. -/
def Permission.fromI64 (item : Int) : PanicOr Permission :=
  if item = 1 then .value .use
  else if item = 2 then .value .status
  else if item = 3 then .value .create
  else if item = 4 then .value .delete
  else if item = 5 then .value .update
  else .panic

/-- A row of the api_clients table, per the queries in src/api/client.rs. -/
structure ClientRow where
  id : Str
  name : Option Str
  key : Str
  created_at : Int
  updated_at : Int
  created_by : Option Str
deriving DecidableEq, Repr

/-- A row of the api_client_permission_scopes table. -/
structure ScopeRow where
  api_client_id : Str
  scope_id : Int
deriving DecidableEq, Repr

/-- The SQLite database contents touched by the auth core. -/
structure Db where
  api_clients : List ClientRow
  scopes : List ScopeRow
deriving DecidableEq, Repr

/-- The storage engine: the database plus a fault schedule; each executed
query consumes one schedule slot and fails when that slot is true, so a
storage failure between two of the sequential awaited queries of the source is a
reachable execution. -/
structure Storage where
  db : Db
  faults : List Bool
deriving DecidableEq, Repr

/-- Consume one fault-schedule slot; an exhausted schedule never faults. -/
def Storage.takeFault (s : Storage) : Bool × Storage :=
  match s.faults with
  | [] => (false, s)
  | f :: rest => (f, ⟨s.db, rest⟩)

/-- Errors of the embedded store operations, mirroring the distinct anyhow
error sources in src/api/client.rs and src/api/auth.rs. -/
inductive Err
  | dbRowNotFound
  | dbPersistence
  | hashNotFound
  | tokenKeyNotFound
  | passwordMismatch
  | keyFormat
  | invalidApiKey
  | noPermission (p : Permission)
deriving DecidableEq, Repr

/-- Result of running an embedded operation: a value, an error, or a
process abort coming from a reachable unreachable arm. -/
inductive RunResult (α : Type)
  | ok (a : α)
  | err (e : Err)
  | panic
deriving DecidableEq, Repr

/-- Sequencing of store operations, the question-mark operator of the
source: errors and aborts stop the computation. -/
def stepThen (r : RunResult α × Storage)
    (f : α → Storage → RunResult β × Storage) : RunResult β × Storage :=
  match r with
  | (.ok a, s) => f a s
  | (.err e, s) => (.err e, s)
  | (.panic, s) => (.panic, s)

/-- Execute one write query: consume a fault slot, then apply the row
mutation; a faulted query leaves the database untouched. -/
def runQuery (apply : Db → Db) (s : Storage) : RunResult Unit × Storage :=
  let (f, s1) := s.takeFault
  if f then (.err .dbPersistence, s1) else (.ok (), ⟨apply s1.db, s1.faults⟩)

/-- INSERT INTO api_clients, appending one row. -/
def insertClientRow (row : ClientRow) : Storage → RunResult Unit × Storage :=
  runQuery (fun db => ⟨db.api_clients ++ [row], db.scopes⟩)

/-- INSERT INTO api_client_permission_scopes, appending one row. -/
def insertScopeRow (row : ScopeRow) : Storage → RunResult Unit × Storage :=
  runQuery (fun db => ⟨db.api_clients, db.scopes ++ [row]⟩)

/-- DELETE FROM api_client_permission_scopes WHERE api_client_id matches. -/
def deleteScopesFor (id : Str) : Storage → RunResult Unit × Storage :=
  runQuery (fun db => ⟨db.api_clients, db.scopes.filter (fun r => r.api_client_id != id)⟩)

/-- DELETE FROM api_clients WHERE id matches. -/
def deleteClientRow (id : Str) : Storage → RunResult Unit × Storage :=
  runQuery (fun db => ⟨db.api_clients.filter (fun r => r.id != id), db.scopes⟩)

/-- UPDATE api_clients SET name, updated_at WHERE id matches. -/
def updateClientRow (name : Str) (now : Int) (id : Str) :
    Storage → RunResult Unit × Storage :=
  runQuery (fun db =>
    ⟨db.api_clients.map (fun r =>
      if r.id == id then ⟨r.id, some name, r.key, r.created_at, now, r.created_by⟩ else r),
     db.scopes⟩)

/-- SELECT one api_clients row by id; fetch_one fails when no row matches. -/
def fetchClient (id : Str) (s : Storage) : RunResult ClientRow × Storage :=
  let (f, s1) := s.takeFault
  if f then (.err .dbPersistence, s1)
  else
    match s1.db.api_clients.find? (fun r => r.id == id) with
    | some r => (.ok r, s1)
    | none => (.err .dbRowNotFound, s1)

/-- SELECT all scope rows for one client id; fetch_all returns the matches. -/
def fetchScopes (id : Str) (s : Storage) : RunResult (List ScopeRow) × Storage :=
  let (f, s1) := s.takeFault
  if f then (.err .dbPersistence, s1)
  else (.ok (s1.db.scopes.filter (fun r => r.api_client_id == id)), s1)

/-- Modelled from the spec: the AuthToken type is declared in the final
revision of src/api/auth.rs, which is absent from the sources; per the
specification it carries the client id together with the raw secret at
issuance time and the stored hash when loaded from storage. -/
structure AuthToken where
  id : Str
  key_raw : Option Str
  key_hash : Option Str
deriving DecidableEq, Repr

/-- Modelled from the spec: AuthToken::new draws a fresh id and a fresh
secret from the CSPRNG (passed here as the two arguments, already
base64-encoded without padding) and hashes the secret with the supplied
hasher and salt. -/
def AuthToken.new (auth : Auth) (freshId freshSecret : Str) : AuthToken :=
  ⟨freshId, some freshSecret, some (auth.hashPassword freshSecret)⟩

/-- AuthToken::from in src/api/client.rs usage: a token reconstructed from a
stored row carries the id and the stored hash, and no raw secret. -/
def AuthToken.fromStored (id : Str) (hash : Str) : AuthToken :=
  ⟨id, none, some hash⟩

/-- Modelled from the spec: the token wire format serializes the id and the
raw secret joined by a single underscore; only a token still holding its raw
secret can be serialized. -/
def AuthToken.serialize (t : AuthToken) : Option Str :=
  t.key_raw.map (fun k => t.id ++ '_' :: k)

/-- Modelled from the spec: AuthToken::from_raw_str, absent from the
sources, parses a presented bearer token using the same first-two-segments
rule as the extract_id_key of the repository, yielding a token that carries the
id and the raw secret. -/
def AuthToken.from_raw_str (sIn : Str) : Except KeyError AuthToken :=
  (extract_id_key sIn).map (fun p => ⟨p.1, some p.2, none⟩)

/-- The in-memory client object of src/api/client.rs lines 16-24. -/
structure ApiClient where
  name : Option Str
  token : AuthToken
  permissions : List Permission
  created_at : Int
  updated_at : Int
  created_by : Option Str
deriving DecidableEq, Repr

/-- Decoding of fetched scope rows through the From i64 conversion, as the
map plus collect in src/api/client.rs lines 189-192; a single out-of-range
value aborts. -/
def decodeScopes : List ScopeRow → PanicOr (List Permission)
  | [] => .value []
  | r :: rs =>
    match Permission.fromI64 r.scope_id, decodeScopes rs with
    | .value p, .value ps => .value (p :: ps)
    | _, _ => .panic

/-- The permission-insertion loop shared by ApiClient::new and
ApiClient::update: one INSERT per permission, each awaited in turn, stopping
at the first failure. -/
def insertScopeRows (cid : Str) : List Permission → Storage → RunResult Unit × Storage
  | [], s => (.ok (), s)
  | p :: ps, s =>
    stepThen (insertScopeRow ⟨cid, p.toI64⟩ s) fun _ s1 => insertScopeRows cid ps s1

/-- ApiClient::new of src/api/client.rs lines 125-175: build a fresh token,
take its hash, INSERT the client row, then INSERT one scope row per
permission, and return the live client object. Fresh randomness and the
clock are passed as arguments. -/
def ApiClient.new (auth : Auth) (name : Str) (permission : List Permission)
    (creator_id : Option Str) (freshId freshSecret : Str) (now : Int)
    (s : Storage) : RunResult ApiClient × Storage :=
  let token := AuthToken.new auth freshId freshSecret
  match token.key_hash with
  | none => (.err .hashNotFound, s)
  | some key_hash =>
    stepThen (insertClientRow ⟨token.id, some name, key_hash, now, now, creator_id⟩ s)
      fun _ s1 =>
        stepThen (insertScopeRows token.id permission s1) fun _ s2 =>
          (.ok ⟨some name, token, permission, now, now, creator_id⟩, s2)

/-- ApiClient::with_token of src/api/client.rs lines 207-247: fetch the
client row by the token id, read the raw secret of the token, verify it against
the stored hash, fetch and decode the scope rows, and return the client
built from the stored record. -/
def ApiClient.with_token (auth : Auth) (token : AuthToken) (s : Storage) :
    RunResult ApiClient × Storage :=
  stepThen (fetchClient token.id s) fun row s1 =>
    match token.key_raw with
    | none => (.err .tokenKeyNotFound, s1)
    | some key =>
      if auth.verifyPassword key row.key then
        stepThen (fetchScopes token.id s1) fun scopeRows s2 =>
          match decodeScopes scopeRows with
          | .panic => (.panic, s2)
          | .value perms =>
            (.ok ⟨row.name, AuthToken.fromStored row.id row.key, perms,
                  row.created_at, row.updated_at, row.created_by⟩, s2)
      else (.err .passwordMismatch, s1)

/-- ApiClient::with_id of src/api/client.rs lines 177-205: fetch the client
row and its scope rows and rebuild the client, with no secret check. -/
def ApiClient.with_id (id : Str) (s : Storage) : RunResult ApiClient × Storage :=
  stepThen (fetchClient id s) fun row s1 =>
    stepThen (fetchScopes id s1) fun scopeRows s2 =>
      match decodeScopes scopeRows with
      | .panic => (.panic, s2)
      | .value perms =>
        (.ok ⟨row.name, AuthToken.fromStored row.id row.key, perms,
              row.created_at, row.updated_at, row.created_by⟩, s2)

/-- ApiClient::has_permission of src/api/client.rs lines 248-256: an error
when the discrete permission is not contained in the list of the client. -/
def ApiClient.has_permission (c : ApiClient) (p : Permission) : Except Err Unit :=
  if c.permissions.contains p then .ok () else .error (.noPermission p)

/-- ApiClient::delete of src/api/client.rs lines 258-270: DELETE the scope
rows, then DELETE the client row. -/
def ApiClient.delete (c : ApiClient) (s : Storage) : RunResult Unit × Storage :=
  stepThen (deleteScopesFor c.token.id s) fun _ s1 => deleteClientRow c.token.id s1

/-- ApiClient::update of src/api/client.rs lines 272-308: UPDATE the client
row name and timestamp and DELETE the old scope rows, then re-INSERT one
scope row per new permission. -/
def ApiClient.update (c : ApiClient) (name : Str) (permission : List Permission)
    (now : Int) (s : Storage) : RunResult Unit × Storage :=
  stepThen (updateClientRow name now c.token.id s) fun _ s1 =>
    stepThen (deleteScopesFor c.token.id s1) fun _ s2 =>
      insertScopeRows c.token.id permission s2

/-- Auth::check_api_key of src/api/auth.rs lines 87-103: parse the key, load
the stored hash by id mapping any load failure to the Invalid API key error,
and return whether the secret verifies, as a boolean. -/
def Auth.check_api_key (auth : Auth) (key : Str) (s : Storage) :
    RunResult Bool × Storage :=
  match extract_id_key key with
  | .error _ => (.err .keyFormat, s)
  | .ok (id, k) =>
    match fetchClient id s with
    | (.ok row, s1) => (.ok (auth.verifyPassword k row.key), s1)
    | (.err _, s1) => (.err .invalidApiKey, s1)
    | (.panic, s1) => (.panic, s1)

/-- Auth::delete_api_key of src/auth.rs lines 71-79: parse the key and
DELETE the api_clients row for its id; scope rows are not touched. -/
def Auth.delete_api_key (key : Str) (s : Storage) : RunResult Unit × Storage :=
  match extract_id_key key with
  | .error _ => (.err .keyFormat, s)
  | .ok (id, _) => deleteClientRow id s

/-!
## The request gate and route handlers, from src/main.rs

The handlers of main.rs check permission constants of the bitset design
(USE_SELF, STATUS_OTHER and so on) whose defining type is absent from the
sources; the vocabulary and the single-row bitset client store are modelled
from the specification, while the control flow of auth_middleware and of
each handler is translated from src/main.rs, and the status codes of the
rejection paths from src/error.rs.
-/

namespace Gate

/-- Modelled from the spec: the superseding bitset permission vocabulary,
five actions each split into a Self and an Other scope bit; the defining
Rust type referenced by src/main.rs is absent from the sources. -/
inductive Capability
  | useSelf | useOther
  | statusSelf | statusOther
  | createSelf | createOther
  | deleteSelf | deleteOther
  | updateSelf | updateOther
deriving DecidableEq, Repr

/-- Modelled from the spec: a stored client record of the bitset design,
one row carrying the id, the optional display name, the stored secret hash,
and the capability bits; the normalized scope table of the superseded
design is not used here. -/
structure Row where
  id : Str
  name : Option Str
  key : Str
  caps : List Capability
deriving DecidableEq, Repr

/-- The authenticated client object the middleware attaches to the request
and every handler receives as an Extension. -/
structure Client where
  id : Str
  name : Option Str
  caps : List Capability
deriving DecidableEq, Repr

/-- Failure of a permission check: the anyhow error raised by
has_permission when the required bit is absent. -/
inductive PermFail
  | missing (p : Capability)
deriving DecidableEq, Repr

/-- has_permission over the bitset design: the containment check and bail
of src/api/client.rs lines 248-256, lifted to the capability vocabulary
that src/main.rs checks. -/
def Client.has_permission (c : Client) (p : Capability) : Except PermFail Unit :=
  if c.caps.contains p then .ok () else .error (.missing p)

/-- Authentication failures inside the load-and-verify chain, matching the
three distinct error sources of ApiClient::with_token. -/
inductive AuthFail
  | rowNotFound
  | tokenKeyNotFound
  | passwordMismatch
deriving DecidableEq, Repr

/-- Modelled from the spec: the final ApiClient::with_token over the bitset
schema is absent from the sources; this follows the structure of the
superseded with_token of src/api/client.rs lines 207-247 — load the row by
the token id, read the raw secret, verify it against the stored hash —
over the single-row bitset store. -/
def Client.with_token (auth : Auth) (tok : AuthToken) (db : List Row) :
    Except AuthFail Client :=
  match db.find? (fun r => r.id == tok.id) with
  | none => .error .rowNotFound
  | some row =>
    match tok.key_raw with
    | none => .error .tokenKeyNotFound
    | some key =>
      if auth.verifyPassword key row.key then .ok ⟨row.id, row.name, row.caps⟩
      else .error .passwordMismatch

/-- ApiClient::with_id over the bitset store: load the row by id and
rebuild the client, with no secret check, as src/api/client.rs lines
177-205 does over the superseded schema. -/
def Client.with_id (id : Str) (db : List Row) : Except AuthFail Client :=
  match db.find? (fun r => r.id == id) with
  | none => .error .rowNotFound
  | some row => .ok ⟨row.id, row.name, row.caps⟩

/-- A rejection produced before the business logic of a protected handler runs,
by auth_middleware of src/main.rs lines 360-380 or by the header extractor. -/
inductive Rejection
  | missingHeader
  | badApiKeyFormat
  | failedAuth
  | missingPermission (p : Capability)
deriving DecidableEq, Repr

/-- The HTTP status of each rejection: the typed-header rejection is a 400;
runner with StatusCode::UNAUTHORIZED is 401; a parse or permission error
propagated with the question-mark operator goes through the blanket From
conversion of src/error.rs lines 47-57, whose status is
InternalServerError, 500. -/
def Rejection.status : Rejection → Nat
  | .missingHeader => 400
  | .badApiKeyFormat => 500
  | .failedAuth => 401
  | .missingPermission _ => 500

/-- auth_middleware of src/main.rs lines 360-380: parse the bearer token,
run the load-and-verify chain mapping any of its failures to the single
401 response, check the baseline Use-Self capability (whose failure
propagates through the blanket error conversion), and attach the client. -/
def auth_middleware (auth : Auth) (raw : Str) (db : List Row) :
    Except Rejection Client :=
  match AuthToken.from_raw_str raw with
  | .error _ => .error .badApiKeyFormat
  | .ok tok =>
    match Client.with_token auth tok db with
    | .error _ => .error .failedAuth
    | .ok client =>
      match client.has_permission .useSelf with
      | .error (.missing p) => .error (.missingPermission p)
      | .ok _ => .ok client

/-- A rejection raised inside a handler after the gate has run. -/
inductive HandlerError
  | missingPermission (p : Capability)
  | targetNotFound
  | loadFailed
deriving DecidableEq, Repr

/-- Status codes of handler rejections: runner with StatusCode::NotFound is
404; everything propagated bare with the question-mark operator takes the
blanket From conversion of src/error.rs, status 500. -/
def HandlerError.status : HandlerError → Nat
  | .missingPermission _ => 500
  | .targetNotFound => 404
  | .loadFailed => 500

/-- handle_status_request of src/main.rs lines 426-448: with a request body
naming an id — any id, the own id of the caller included — require Status-Other and
look the target up, mapping a lookup failure to 404; with no body require
Status-Self and return the caller. -/
def handle_status_request (caller : Client) (req : Option Str) (db : List Row) :
    Except HandlerError (Nat × Client) :=
  match req with
  | some id =>
    match caller.has_permission .statusOther with
    | .error (.missing p) => .error (.missingPermission p)
    | .ok _ =>
      match Client.with_id id db with
      | .error _ => .error .targetNotFound
      | .ok c => .ok (200, c)
  | none =>
    match caller.has_permission .statusSelf with
    | .error (.missing p) => .error (.missingPermission p)
    | .ok _ => .ok (200, caller)

/-- handle_delete_request of src/main.rs lines 469-482: require Delete-Self,
then, when the requested id differs from the id of the caller, load that client —
a lookup failure propagates as a bare 500 — and delete whichever client was
selected; no Delete-Other bit is ever consulted. -/
def handle_delete_request (caller : Client) (reqId : Str) (db : List Row) :
    Except HandlerError (Nat × List Row) :=
  match caller.has_permission .deleteSelf with
  | .error (.missing p) => .error (.missingPermission p)
  | .ok _ =>
    match (if reqId != caller.id then Client.with_id reqId db else .ok caller) with
    | .error _ => .error .loadFailed
    | .ok target => .ok (200, db.filter (fun r => r.id != target.id))

/-- handle_update_request of src/main.rs lines 484-510: with a body id
different from the id of the caller, require Update-Other and load the target,
mapping a lookup failure to 404; with no body id, require Update-Self; with
a body id equal to the own id of the caller, no permission is checked at all; then
overwrite the name and permission set of the selected client. -/
def handle_update_request (caller : Client) (reqId : Option Str) (name : Str)
    (perms : List Capability) (db : List Row) :
    Except HandlerError (Nat × List Row) :=
  let selected : Except HandlerError Client :=
    match reqId with
    | some id =>
      if id != caller.id then
        match caller.has_permission .updateOther with
        | .error (.missing p) => .error (.missingPermission p)
        | .ok _ =>
          match Client.with_id id db with
          | .error _ => .error .targetNotFound
          | .ok t => .ok t
      else .ok caller
    | none =>
      match caller.has_permission .updateSelf with
      | .error (.missing p) => .error (.missingPermission p)
      | .ok _ => .ok caller
  match selected with
  | .error e => .error e
  | .ok target =>
    .ok (200, db.map (fun r =>
      if r.id == target.id then ⟨r.id, some name, r.key, perms⟩ else r))

/-- handle_health_request of src/main.rs lines 420-424: always 200 OK. -/
def handle_health_request : Except HandlerError Nat := .ok 200

/-- One installed route: its full path and whether the auth_middleware
layer wraps it. -/
structure RouteEntry where
  path : String
  authWrapped : Bool
deriving DecidableEq, Repr

/-- Router::nest, prefixing each nested path. -/
def nest (p : String) (rs : List RouteEntry) : List RouteEntry :=
  rs.map (fun r => ⟨p ++ r.path, r.authWrapped⟩)

/-- Router::layer with the auth middleware: in axum a layer applies to the
routes added before the layer call, so it marks every existing entry. -/
def layerAuth (rs : List RouteEntry) : List RouteEntry :=
  rs.map (fun r => ⟨r.path, true⟩)

/-- The text router of src/main.rs lines 269-271. -/
def text_router : List RouteEntry := [⟨"/raw", false⟩, ⟨"/instruct", false⟩]

/-- The audio router of src/main.rs lines 273-276. -/
def audio_router : List RouteEntry := [⟨"/transcribe", false⟩]

/-- The auth router of src/main.rs lines 278-282. -/
def auth_router : List RouteEntry :=
  [⟨"/status", false⟩, ⟨"/create", false⟩, ⟨"/delete", false⟩, ⟨"/update", false⟩]

/-- The application router of src/main.rs lines 284-295: the three nested
groups are layered with auth_middleware, and the health route is added
after that layer, hence outside it. -/
def appRouter : List RouteEntry :=
  layerAuth (nest ("/auth") auth_router ++ nest ("/text") text_router ++
    nest ("/audio") audio_router) ++ [⟨"/health", false⟩]

/-- What a dispatched request reaches. -/
inductive Dispatched
  | health (status_code : Nat)
  | business (client : Client)
deriving DecidableEq, Repr

/-- Dispatch of one request through the router: an auth-wrapped route
demands an Authorization header and runs auth_middleware, and on success
the request proceeds to its protected handler with the client attached;
the health route runs its handler directly, with no header, no token
parse, no verification, no permission check and no attached client. -/
def dispatch (auth : Auth) (db : List Row) (path : String) (header : Option Str) :
    Except Rejection Dispatched :=
  match appRouter.find? (fun e => e.path == path) with
  | none => .ok (.health 404)
  | some e =>
    if e.authWrapped then
      match header with
      | none => .error .missingHeader
      | some raw =>
        match auth_middleware auth raw db with
        | .error r => .error r
        | .ok client => .ok (.business client)
    else
      match handle_health_request with
      | .ok n => .ok (.health n)
      | .error _ => .error .badApiKeyFormat

end Gate

/-! ## Helper lemmas -/

/-- A string without the separator splits into the single whole segment. -/
theorem splitOnChar_of_not_mem {sep : Char} {s : Str} (h : sep ∉ s) :
    splitOnChar sep s = [s] := by
  induction s with
  | nil => rfl
  | cons c cs ih =>
    have hc : c ≠ sep := fun he => h (he ▸ List.mem_cons_self c cs)
    have hcs : sep ∉ cs := fun hm => h (List.mem_cons_of_mem c hm)
    simp [splitOnChar, hc, ih hcs]

/-- Splitting a string whose first separator occurrence follows a
separator-free prefix peels off that prefix as the first segment. -/
theorem splitOnChar_append {sep : Char} {a : Str} (b : Str) (h : sep ∉ a) :
    splitOnChar sep (a ++ sep :: b) = a :: splitOnChar sep b := by
  induction a with
  | nil => simp [splitOnChar]
  | cons c cs ih =>
    have hc : c ≠ sep := fun he => h (he ▸ List.mem_cons_self c cs)
    have hcs : sep ∉ cs := fun hm => h (List.mem_cons_of_mem c hm)
    simp [splitOnChar, hc, ih hcs]

/-- The split of any string is never the empty list of segments. -/
theorem splitOnChar_ne_nil (sep : Char) (s : Str) : splitOnChar sep s ≠ [] := by
  cases s with
  | nil => simp [splitOnChar]
  | cons c cs =>
    by_cases hc : c = sep
    · simp [splitOnChar, hc]
    · simp only [splitOnChar, if_neg hc]
      cases splitOnChar sep cs <;> simp

/-- A generic find followed by an appended suffix skips a prefix on which
the predicate never holds. -/
theorem find?_append_of_all_false {α : Type} {p : α → Bool} {l1 : List α}
    (l2 : List α) (h : ∀ x ∈ l1, p x = false) :
    (l1 ++ l2).find? p = l2.find? p := by
  induction l1 with
  | nil => rfl
  | cons x xs ih =>
    have hx : p x = false := h x (List.mem_cons_self x xs)
    simp only [List.cons_append, List.find?, hx]
    exact ih (fun y hy => h y (List.mem_cons_of_mem x hy))

/-- Decoding then encoding a permission is the identity. -/
theorem fromI64_toI64 (p : Permission) :
    Permission.fromI64 (Permission.toI64 p) = .value p := by
  cases p <;> rfl

/-- Decoding the scope rows written for a permission list recovers exactly
that list. -/
theorem decodeScopes_map (cid : Str) (ps : List Permission) :
    decodeScopes (ps.map (fun p => ⟨cid, p.toI64⟩)) = .value ps := by
  induction ps with
  | nil => rfl
  | cons p rest ih => simp [decodeScopes, fromI64_toI64, ih]

/-- With an empty fault schedule the scope-insertion loop always succeeds
and appends exactly the encoded rows. -/
theorem insertScopeRows_empty_faults (cid : Str) (ps : List Permission)
    (db : Db) :
    insertScopeRows cid ps ⟨db, []⟩ =
      (.ok (), ⟨⟨db.api_clients, db.scopes ++ ps.map (fun p => ⟨cid, p.toI64⟩)⟩, []⟩) := by
  induction ps generalizing db with
  | nil => cases db; simp [insertScopeRows]
  | cons p rest ih =>
    cases db with
    | mk cl sc =>
      simp [insertScopeRows, insertScopeRow, runQuery, Storage.takeFault, stepThen, ih]

/-- Decidable equality of Except values with decidable components, for
evaluating the embedded operations at concrete inputs. -/
instance instDecEqExcept {ε α : Type} [DecidableEq ε] [DecidableEq α] :
    DecidableEq (Except ε α) := fun x y =>
  match x, y with
  | .ok a, .ok b =>
    if h : a = b then .isTrue (h ▸ rfl) else .isFalse (fun hc => h (Except.ok.inj hc))
  | .error a, .error b =>
    if h : a = b then .isTrue (h ▸ rfl) else .isFalse (fun hc => h (Except.error.inj hc))
  | .ok _, .error _ => .isFalse (fun hc => Except.noConfusion hc)
  | .error _, .ok _ => .isFalse (fun hc => Except.noConfusion hc)

/-- A convenient tiny hasher for concrete witnesses: hashing prepends a
marker character and verification re-hashes and compares. -/
def toyAuth : Auth :=
  ⟨fun s => 'h' :: s, fun k h => h == 'h' :: k⟩

/-- A filter over a list on which the predicate never holds is empty. -/
theorem filter_all_false {α : Type} {p : α → Bool} {l : List α}
    (h : ∀ x ∈ l, p x = false) : l.filter p = [] := by
  induction l with
  | nil => rfl
  | cons x xs ih =>
    have hx := h x (List.mem_cons_self x xs)
    simp [List.filter, hx, ih (fun y hy => h y (List.mem_cons_of_mem x hy))]

/-- A filter over a list on which the predicate always holds keeps it. -/
theorem filter_all_true {α : Type} {p : α → Bool} {l : List α}
    (h : ∀ x ∈ l, p x = true) : l.filter p = l := by
  induction l with
  | nil => rfl
  | cons x xs ih =>
    have hx := h x (List.mem_cons_self x xs)
    simp [List.filter, hx, ih (fun y hy => h y (List.mem_cons_of_mem x hy))]

/-- Parsing a separator-free id joined to a separator-free secret by the
single separator recovers exactly that pair. -/
theorem extract_id_key_append {a b : Str} (ha : '_' ∉ a) (hb : '_' ∉ b) :
    extract_id_key (a ++ '_' :: b) = .ok (a, b) := by
  simp [extract_id_key, splitOnChar_append b ha, splitOnChar_of_not_mem hb]

/-! ## Claim C5: token parsing -/

/-- C5, counterexample to the claim as stated: extract_id_key accepts an
empty id segment instead of rejecting it, and with more than one separator
it returns only the segment between the first two separators, dropping the
rest instead of preserving it in the secret. -/
theorem c5_counterexample :
    extract_id_key (str ("a_b_c")) = .ok (str ("a"), str ("b")) ∧
    str ("b") ≠ str ("b_c") ∧
    extract_id_key (str ("_x")) = .ok ([], str ("x")) ∧
    extract_id_key (str ("a_")) = .ok (str ("a"), []) := by
  refine ⟨by decide, by decide, by decide, by decide⟩

/-- C5, amended: parsing splits at every separator and keeps the first two
segments: a string without a separator is rejected, the id is everything
before the first separator, the secret is the segment between the first and
second separators — anything after a second separator is dropped — and
empty id or secret segments are accepted. -/
theorem c5_amended (a b c s : Str) (ha : '_' ∉ a) (hb : '_' ∉ b)
    (hs : '_' ∉ s) :
    extract_id_key (a ++ '_' :: b) = .ok (a, b) ∧
    extract_id_key (a ++ '_' :: (b ++ '_' :: c)) = .ok (a, b) ∧
    extract_id_key s = .error .invalidFormat := by
  refine ⟨extract_id_key_append ha hb, ?_, ?_⟩
  · simp [extract_id_key, splitOnChar_append (b ++ '_' :: c) ha,
      splitOnChar_append c hb]
  · simp [extract_id_key, splitOnChar_of_not_mem hs]

/-- C5, witness: the amended statement at concrete segments. -/
theorem c5_witness :
    extract_id_key (str ("id") ++ '_' :: str ("sec")) = .ok (str ("id"), str ("sec")) ∧
    extract_id_key (str ("id") ++ '_' :: (str ("sec") ++ '_' :: str ("tail"))) =
      .ok (str ("id"), str ("sec")) ∧
    extract_id_key (str ("nosep")) = .error .invalidFormat :=
  c5_amended (str ("id")) (str ("sec")) (str ("tail")) (str ("nosep"))
    (by decide) (by decide) (by decide)

/-! ## Claim C6: loading stored permission integers -/

/-- C6, counterexample to the claim as stated: the stored value 6 is outside
the known permission range, and loading it does not produce an error
result — it falls into the unreachable arm and aborts the process. -/
theorem c6_counterexample : Permission.fromI64 6 = .panic := by decide

/-- C6, amended: stored values 1 to 5 decode to exactly the permission that
encoded them, and every value that is not the encoding of any permission
hits the unreachable arm and panics — there is no CorruptPermissionData
error path, though no unknown value is ever silently mapped to a valid
permission. -/
theorem c6_amended :
    (∀ p : Permission, Permission.fromI64 (Permission.toI64 p) = .value p) ∧
    (∀ n : Int, (∀ p : Permission, Permission.toI64 p ≠ n) →
      Permission.fromI64 n = .panic) := by
  refine ⟨fromI64_toI64, ?_⟩
  intro n h
  have h1 : n ≠ 1 := fun hn => h .use (by simp [Permission.toI64, hn])
  have h2 : n ≠ 2 := fun hn => h .status (by simp [Permission.toI64, hn])
  have h3 : n ≠ 3 := fun hn => h .create (by simp [Permission.toI64, hn])
  have h4 : n ≠ 4 := fun hn => h .delete (by simp [Permission.toI64, hn])
  have h5 : n ≠ 5 := fun hn => h .update (by simp [Permission.toI64, hn])
  simp [Permission.fromI64, h1, h2, h3, h4, h5]

/-- C6, witness: the amended statement at the encoding of Use and at the
out-of-range value 7. -/
theorem c6_witness :
    Permission.fromI64 (Permission.toI64 .use) = .value .use ∧
    Permission.fromI64 7 = .panic :=
  ⟨c6_amended.1 .use, c6_amended.2 7 (fun p => by cases p <;> decide)⟩

/-! ## Claim C3: create followed by load-and-verify -/

/-- With an empty fault schedule, creation succeeds and appends exactly one
client row and the encoded scope rows. -/
theorem new_empty_faults (auth : Auth) (name : Str) (perms : List Permission)
    (creator : Option Str) (fid fsec : Str) (now : Int) (db : Db) :
    ApiClient.new auth name perms creator fid fsec now ⟨db, []⟩ =
      (.ok ⟨some name, ⟨fid, some fsec, some (auth.hashPassword fsec)⟩, perms,
            now, now, creator⟩,
       ⟨⟨db.api_clients ++ [⟨fid, some name, auth.hashPassword fsec, now, now, creator⟩],
         db.scopes ++ perms.map (fun p => ⟨fid, p.toI64⟩)⟩, []⟩) := by
  simp [ApiClient.new, AuthToken.new, insertClientRow, runQuery, Storage.takeFault,
    stepThen, insertScopeRows_empty_faults]

/-- Running the load-and-verify chain on the state left by a fresh creation
finds the created row, verifies its secret, and reloads exactly the created
name and permissions. -/
theorem with_token_after_new (auth : Auth) (name : Str) (perms : List Permission)
    (creator : Option Str) (fid fsec : Str) (now : Int) (db : Db)
    (hv : auth.verifyPassword fsec (auth.hashPassword fsec) = true)
    (hfresh : ∀ r ∈ db.api_clients, r.id ≠ fid)
    (hscope : ∀ sr ∈ db.scopes, sr.api_client_id ≠ fid) :
    ApiClient.with_token auth ⟨fid, some fsec, none⟩
      ⟨⟨db.api_clients ++ [⟨fid, some name, auth.hashPassword fsec, now, now, creator⟩],
        db.scopes ++ perms.map (fun p => ⟨fid, p.toI64⟩)⟩, []⟩ =
      (.ok ⟨some name, ⟨fid, none, some (auth.hashPassword fsec)⟩, perms,
            now, now, creator⟩,
       ⟨⟨db.api_clients ++ [⟨fid, some name, auth.hashPassword fsec, now, now, creator⟩],
         db.scopes ++ perms.map (fun p => ⟨fid, p.toI64⟩)⟩, []⟩) := by
  have hfind :
      (db.api_clients ++
        [(⟨fid, some name, auth.hashPassword fsec, now, now, creator⟩ : ClientRow)]).find?
          (fun r => r.id == fid) =
        some ⟨fid, some name, auth.hashPassword fsec, now, now, creator⟩ := by
    rw [find?_append_of_all_false _
      (fun r hr => by simp [hfresh r hr])]
    simp [List.find?]
  have hnil : db.scopes.filter (fun r => r.api_client_id == fid) = [] :=
    filter_all_false (fun sr hsr => by simp [hscope sr hsr])
  have hkeep :
      (perms.map (fun p => (⟨fid, p.toI64⟩ : ScopeRow))).filter
          (fun r => r.api_client_id == fid) =
        perms.map (fun p => (⟨fid, p.toI64⟩ : ScopeRow)) := by
    refine filter_all_true (fun sr hsr => ?_)
    rcases List.mem_map.mp hsr with ⟨p, _, rfl⟩
    simp
  simp [ApiClient.with_token, fetchClient, fetchScopes, Storage.takeFault, stepThen,
    hfind, hnil, hkeep, hv, decodeScopes_map, AuthToken.fromStored]

/-- C3: for every hasher whose verify accepts what its hash produced, every
name, every permission list, fresh random id and secret (separator-free, as
unpadded base64 output is) not colliding with any stored row, creating a
client and then running the load-and-verify chain on the exact serialized
token of the creation succeeds and yields the created id, name and
permission set. -/
theorem c3_create_then_load (auth : Auth) (name : Str) (perms : List Permission)
    (creator : Option Str) (fid fsec : Str) (now : Int) (db : Db)
    (hv : auth.verifyPassword fsec (auth.hashPassword fsec) = true)
    (hid : '_' ∉ fid) (hsec : '_' ∉ fsec)
    (hfresh : ∀ r ∈ db.api_clients, r.id ≠ fid)
    (hscope : ∀ sr ∈ db.scopes, sr.api_client_id ≠ fid) :
    ∃ created : ApiClient, ∃ s1 : Storage,
      ApiClient.new auth name perms creator fid fsec now ⟨db, []⟩ = (.ok created, s1) ∧
      created.name = some name ∧ created.permissions = perms ∧
      created.token.serialize = some (fid ++ '_' :: fsec) ∧
      ∃ tok : AuthToken,
        AuthToken.from_raw_str (fid ++ '_' :: fsec) = .ok tok ∧
        ∃ loaded : ApiClient, ∃ s2 : Storage,
          ApiClient.with_token auth tok s1 = (.ok loaded, s2) ∧
          loaded.token.id = created.token.id ∧
          loaded.name = created.name ∧
          loaded.permissions = created.permissions := by
  refine ⟨_, _, new_empty_faults auth name perms creator fid fsec now db,
    rfl, rfl, rfl, ⟨fid, some fsec, none⟩, ?_, ?_⟩
  · simp [AuthToken.from_raw_str, extract_id_key_append hid hsec, Except.map]
  · exact ⟨_, _, with_token_after_new auth name perms creator fid fsec now db
      hv hfresh hscope, rfl, rfl, rfl⟩

/-- C3, witness: the round trip at a concrete hasher, name, permission list
and fresh randomness over the empty store. -/
theorem c3_witness :
    ∃ created : ApiClient, ∃ s1 : Storage,
      ApiClient.new toyAuth (str ("n")) [.use, .status] none (str ("i")) (str ("s")) 0
        ⟨⟨[], []⟩, []⟩ = (.ok created, s1) ∧
      created.name = some (str ("n")) ∧ created.permissions = [.use, .status] ∧
      created.token.serialize = some (str ("i") ++ '_' :: str ("s")) ∧
      ∃ tok : AuthToken,
        AuthToken.from_raw_str (str ("i") ++ '_' :: str ("s")) = .ok tok ∧
        ∃ loaded : ApiClient, ∃ s2 : Storage,
          ApiClient.with_token toyAuth tok s1 = (.ok loaded, s2) ∧
          loaded.token.id = created.token.id ∧
          loaded.name = created.name ∧
          loaded.permissions = created.permissions :=
  c3_create_then_load toyAuth (str ("n")) [.use, .status] none (str ("i")) (str ("s")) 0
    (⟨[], []⟩ : Db) (by decide) (by decide) (by decide) (by decide) (by decide)

/-! ## Claim C4: undifferentiated authentication failure -/

/-- C4, counterexample to the claim as stated: over a store holding one
client, the load-and-verify chain returns a row-not-found error for an
unknown id but a password-mismatch error for a known id with a wrong
secret — two different failure values — and check_api_key even changes
shape, an error for the unknown id against a false success for the wrong
secret. -/
theorem c4_counterexample :
    (ApiClient.with_token toyAuth ⟨str ("id2"), some (str ("k")), none⟩
      ⟨⟨[⟨str ("id1"), some (str ("n")), 'h' :: str ("k"), 0, 0, none⟩], []⟩, []⟩).1 =
      .err .dbRowNotFound ∧
    (ApiClient.with_token toyAuth ⟨str ("id1"), some (str ("x")), none⟩
      ⟨⟨[⟨str ("id1"), some (str ("n")), 'h' :: str ("k"), 0, 0, none⟩], []⟩, []⟩).1 =
      .err .passwordMismatch ∧
    (RunResult.err .dbRowNotFound : RunResult ApiClient) ≠ .err .passwordMismatch ∧
    (Auth.check_api_key toyAuth (str ("id2_k"))
      ⟨⟨[⟨str ("id1"), some (str ("n")), 'h' :: str ("k"), 0, 0, none⟩], []⟩, []⟩).1 =
      .err .invalidApiKey ∧
    (Auth.check_api_key toyAuth (str ("id1_x"))
      ⟨⟨[⟨str ("id1"), some (str ("n")), 'h' :: str ("k"), 0, 0, none⟩], []⟩, []⟩).1 =
      .ok false := by
  refine ⟨by decide, by decide, by decide, by decide, by decide⟩

/-- C4, amended: the single undifferentiated AuthenticationFailed outcome
exists at the authorization-middleware boundary: whatever failure the
load-and-verify chain produced — unknown id, missing raw key or wrong
secret — the middleware result is the one identical 401 rejection. -/
theorem c4_amended (auth : Auth) (raw : Str) (db : List Gate.Row)
    (tok : AuthToken) (hparse : AuthToken.from_raw_str raw = .ok tok)
    (e : Gate.AuthFail)
    (hfail : Gate.Client.with_token auth tok db = .error e) :
    Gate.auth_middleware auth raw db = .error .failedAuth ∧
    Gate.Rejection.status .failedAuth = 401 := by
  refine ⟨?_, rfl⟩
  simp [Gate.auth_middleware, hparse, hfail]

/-- C4, witness: the amended statement at a concrete store and an unknown
token id. -/
theorem c4_witness :
    Gate.auth_middleware toyAuth (str ("id2_k"))
      [⟨str ("id1"), none, 'h' :: str ("k"), []⟩] = .error .failedAuth ∧
    Gate.Rejection.status .failedAuth = 401 :=
  c4_amended toyAuth (str ("id2_k")) [⟨str ("id1"), none, 'h' :: str ("k"), []⟩]
    ⟨str ("id2"), some (str ("k")), none⟩ (by decide) .rowNotFound (by decide)

/-! ## Claim C7: atomicity of create and update writes -/

/-- C7: evaluation at the failing input. Creating a client with two
permissions while the storage faults on the third query — the second
permission insert — returns a persistence error yet leaves the client row
and only the first of its two permission rows persisted: the partial state
the claim says is unreachable. -/
theorem c7_evaluation :
    ApiClient.new toyAuth (str ("n")) [.use, .status] none (str ("i")) (str ("s")) 0
      ⟨⟨[], []⟩, [false, false, true]⟩ =
      (.err .dbPersistence,
       ⟨⟨[⟨str ("i"), some (str ("n")), 'h' :: str ("s"), 0, 0, none⟩],
         [⟨str ("i"), 1⟩]⟩, []⟩) ∧
    ([(⟨str ("i"), 1⟩ : ScopeRow)]).length ≠
      ([Permission.use, Permission.status]).length := by
  refine ⟨by decide, by decide⟩

/-! ## Claim C9: idempotent delete -/

/-- C9, counterexample to the claim as stated: the cited legacy
Auth::delete_api_key deletes only the api_clients row, so after two calls —
both succeeding — the permission row for the id still remains. -/
theorem c9_counterexample :
    Auth.delete_api_key (str ("a_k"))
      ⟨⟨[⟨str ("a"), none, str ("h"), 0, 0, none⟩], [⟨str ("a"), 1⟩]⟩, []⟩ =
      (.ok (), ⟨⟨[], [⟨str ("a"), 1⟩]⟩, []⟩) ∧
    Auth.delete_api_key (str ("a_k")) ⟨⟨[], [⟨str ("a"), 1⟩]⟩, []⟩ =
      (.ok (), ⟨⟨[], [⟨str ("a"), 1⟩]⟩, []⟩) ∧
    ([(⟨str ("a"), 1⟩ : ScopeRow)]) ≠ [] := by
  refine ⟨by decide, by decide, by decide⟩

/-- C9, amended: ApiClient::delete is idempotent exactly as claimed — it
succeeds on any store, a second call succeeds and changes nothing, and no
client row or permission row for the id remains; the legacy
Auth::delete_api_key is likewise idempotent and error-free but removes only
the client row, leaving permission rows for the id behind. -/
theorem c9_amended (c : ApiClient) (db : Db) :
    ∃ s1 : Storage,
      ApiClient.delete c ⟨db, []⟩ = (.ok (), s1) ∧
      ApiClient.delete c s1 = (.ok (), s1) ∧
      (∀ r ∈ s1.db.api_clients, r.id ≠ c.token.id) ∧
      (∀ sr ∈ s1.db.scopes, sr.api_client_id ≠ c.token.id) := by
  refine ⟨(⟨⟨db.api_clients.filter (fun r => r.id != c.token.id),
             db.scopes.filter (fun r => r.api_client_id != c.token.id)⟩, []⟩ : Storage),
    ?_, ?_, ?_, ?_⟩
  · simp [ApiClient.delete, deleteScopesFor, deleteClientRow, runQuery,
      Storage.takeFault, stepThen]
  · simp [ApiClient.delete, deleteScopesFor, deleteClientRow, runQuery,
      Storage.takeFault, stepThen, List.filter_filter]
  · intro r hr
    have := (List.mem_filter.mp hr).2
    simpa using this
  · intro sr hsr
    have := (List.mem_filter.mp hsr).2
    simpa using this

/-- C9, witness: the amended statement at a concrete client and store. -/
theorem c9_witness :
    ∃ s1 : Storage,
      ApiClient.delete ⟨none, ⟨str ("a"), none, some (str ("h"))⟩, [], 0, 0, none⟩
        ⟨⟨[⟨str ("a"), none, str ("h"), 0, 0, none⟩], [⟨str ("a"), 1⟩]⟩, []⟩ =
        (.ok (), s1) ∧
      ApiClient.delete ⟨none, ⟨str ("a"), none, some (str ("h"))⟩, [], 0, 0, none⟩ s1 =
        (.ok (), s1) ∧
      (∀ r ∈ s1.db.api_clients, r.id ≠ str ("a")) ∧
      (∀ sr ∈ s1.db.scopes, sr.api_client_id ≠ str ("a")) :=
  c9_amended ⟨none, ⟨str ("a"), none, some (str ("h"))⟩, [], 0, 0, none⟩
    ⟨[⟨str ("a"), none, str ("h"), 0, 0, none⟩], [⟨str ("a"), 1⟩]⟩

/-! ## Claim C1: self versus other scoped permission checks in handlers -/

/-- C1: evaluation of the handlers at the divergent inputs. A caller holding
only Use-Self and Delete-Self deletes the record of another client — no
Delete-Other bit is consulted; a caller with no capabilities at all updates
its own record by passing its own id explicitly — no Update-Self check runs
on that path; and a caller holding Status-Self is refused its own status
when it names its own id, because an explicit id always demands
Status-Other. -/
theorem c1_evaluation :
    ((⟨str ("alice"), none, [.useSelf, .deleteSelf]⟩ : Gate.Client).caps.contains
      Gate.Capability.deleteOther = false) ∧
    Gate.handle_delete_request ⟨str ("alice"), none, [.useSelf, .deleteSelf]⟩ (str ("bob"))
      [⟨str ("alice"), none, str ("h"), [.useSelf, .deleteSelf]⟩,
       ⟨str ("bob"), none, str ("h"), [.useSelf]⟩] =
      .ok (200, [⟨str ("alice"), none, str ("h"), [.useSelf, .deleteSelf]⟩]) ∧
    ((⟨str ("carol"), none, []⟩ : Gate.Client).caps.contains
      Gate.Capability.updateSelf = false) ∧
    Gate.handle_update_request ⟨str ("carol"), none, []⟩ (some (str ("carol"))) (str ("nm"))
      [Gate.Capability.useSelf] [⟨str ("carol"), none, str ("h"), []⟩] =
      .ok (200, [⟨str ("carol"), some (str ("nm")), str ("h"), [Gate.Capability.useSelf]⟩]) ∧
    Gate.handle_status_request ⟨str ("dave"), none, [.statusSelf]⟩ (some (str ("dave")))
      [⟨str ("dave"), none, str ("h"), [.statusSelf]⟩] =
      .error (.missingPermission .statusOther) := by
  refine ⟨by decide, by decide, by decide, by decide, by decide⟩

/-! ## Claim C2: the authorization gate verifies and baseline-authorizes -/

/-- A failed containment check makes has_permission the bail error. -/
theorem has_permission_eq_error {c : Gate.Client} {p : Gate.Capability}
    (h : c.caps.contains p = false) :
    c.has_permission p = .error (.missing p) := by
  unfold Gate.Client.has_permission
  rw [h]
  simp

/-- A passed containment check makes has_permission succeed. -/
theorem has_permission_eq_ok {c : Gate.Client} {p : Gate.Capability}
    (h : c.caps.contains p = true) :
    c.has_permission p = .ok () := by
  unfold Gate.Client.has_permission
  rw [h]
  simp

/-- Inversion of a successful load-and-verify: success pins down the stored
row, the presented raw secret, a passed verification, and the shape of the
returned client. -/
theorem with_token_ok_inv (auth : Auth) (tok : AuthToken) (db : List Gate.Row)
    (c : Gate.Client) (h : Gate.Client.with_token auth tok db = .ok c) :
    ∃ row key, db.find? (fun r => r.id == tok.id) = some row ∧
      tok.key_raw = some key ∧ auth.verifyPassword key row.key = true ∧
      c = ⟨row.id, row.name, row.caps⟩ := by
  unfold Gate.Client.with_token at h
  split at h
  · simp at h
  next row hf =>
    split at h
    · simp at h
    next key hk =>
      split at h
      next hv => exact ⟨row, key, hf, hk, hv, (Except.ok.inj h).symm⟩
      next hv => simp at h

/-- C2, counterexample to the claim as stated: a client that authenticates
with the correct secret but lacks the Use-Self bit is rejected with the
500-status response produced by the blanket error conversion, not with a
Forbidden 403. -/
theorem c2_counterexample :
    Gate.auth_middleware toyAuth (str ("a_k"))
      [⟨str ("a"), none, 'h' :: str ("k"), []⟩] =
      .error (.missingPermission .useSelf) ∧
    Gate.Rejection.status (.missingPermission .useSelf) = 500 ∧
    (500 : Nat) ≠ 403 := by
  refine ⟨by decide, by decide, by decide⟩

/-- C2, amended: the gate authorizes a request only after both steps — a
success implies the stored row was resolved, the presented secret verified
against its stored hash, and the resolved client holds Use-Self — a
verification failure is rejected with the 401 AuthenticationFailed
response, and a missing Use-Self bit is rejected too, though with the
500-status blanket-conversion response rather than Forbidden. -/
theorem c2_amended (auth : Auth) (raw : Str) (db : List Gate.Row) :
    (∀ client, Gate.auth_middleware auth raw db = .ok client →
      ∃ tok row key,
        AuthToken.from_raw_str raw = .ok tok ∧
        db.find? (fun r => r.id == tok.id) = some row ∧
        tok.key_raw = some key ∧
        auth.verifyPassword key row.key = true ∧
        client = ⟨row.id, row.name, row.caps⟩ ∧
        client.caps.contains Gate.Capability.useSelf = true) ∧
    (∀ tok e, AuthToken.from_raw_str raw = .ok tok →
      Gate.Client.with_token auth tok db = .error e →
      Gate.auth_middleware auth raw db = .error .failedAuth ∧
      Gate.Rejection.status .failedAuth = 401) ∧
    (∀ tok client, AuthToken.from_raw_str raw = .ok tok →
      Gate.Client.with_token auth tok db = .ok client →
      client.caps.contains Gate.Capability.useSelf = false →
      Gate.auth_middleware auth raw db = .error (.missingPermission .useSelf) ∧
      Gate.Rejection.status (.missingPermission .useSelf) = 500) := by
  refine ⟨?_, ?_, ?_⟩
  · intro client h
    unfold Gate.auth_middleware at h
    split at h
    · simp at h
    next tok hp =>
      split at h
      · simp at h
      next c hw =>
        split at h
        next p hpm => simp at h
        next a hpm =>
          have hcl : c = client := Except.ok.inj h
          have hcc : c.caps.contains Gate.Capability.useSelf = true := by
            cases hb : c.caps.contains Gate.Capability.useSelf with
            | true => rfl
            | false => rw [has_permission_eq_error hb] at hpm; simp at hpm
          rcases with_token_ok_inv auth tok db c hw with ⟨row, key, hf, hk, hv, hc⟩
          exact ⟨tok, row, key, hp, hf, hk, hv, hcl ▸ hc, hcl ▸ hcc⟩
  · intro tok e hp hw
    refine ⟨?_, rfl⟩
    simp [Gate.auth_middleware, hp, hw]
  · intro tok client hp hw hperm
    refine ⟨?_, rfl⟩
    simp [Gate.auth_middleware, hp, hw, has_permission_eq_error hperm]

/-- C2, witness: the missing-baseline branch of the amended statement at a
concrete store, and its authentication-failure branch at a wrong secret. -/
theorem c2_witness :
    (Gate.auth_middleware toyAuth (str ("b_k"))
      [⟨str ("b"), none, 'h' :: str ("k"), [Gate.Capability.statusSelf]⟩] =
      .error (.missingPermission .useSelf) ∧
     Gate.Rejection.status (.missingPermission .useSelf) = 500) ∧
    (Gate.auth_middleware toyAuth (str ("b_w"))
      [⟨str ("b"), none, 'h' :: str ("k"), [Gate.Capability.statusSelf]⟩] =
      .error .failedAuth ∧
     Gate.Rejection.status .failedAuth = 401) :=
  ⟨(c2_amended toyAuth (str ("b_k"))
      [⟨str ("b"), none, 'h' :: str ("k"), [Gate.Capability.statusSelf]⟩]).2.2
    ⟨str ("b"), some (str ("k")), none⟩ ⟨str ("b"), none, [Gate.Capability.statusSelf]⟩
    (by decide) (by decide) (by decide),
   (c2_amended toyAuth (str ("b_w"))
      [⟨str ("b"), none, 'h' :: str ("k"), [Gate.Capability.statusSelf]⟩]).2.1
    ⟨str ("b"), some (str ("w")), none⟩ .passwordMismatch (by decide) (by decide)⟩

/-! ## Claim C8: rejection classes for missing permission and failed
authentication -/

/-- C8, counterexample to the claim as stated: a validly authenticated
caller missing the required Status-Self bit is rejected with status 500 —
the server-error class — not with a Forbidden 403. -/
theorem c8_counterexample :
    Gate.handle_status_request ⟨str ("s"), none, [Gate.Capability.useSelf]⟩ none [] =
      .error (.missingPermission .statusSelf) ∧
    Gate.HandlerError.status (.missingPermission .statusSelf) = 500 ∧
    (500 : Nat) ≠ 403 := by
  refine ⟨by decide, by decide, by decide⟩

/-- C8, amended: an authentication failure is rejected as 401 and a missing
permission bit as 500 via the blanket error conversion — the two categories
are never collapsed into each other, but the missing-permission rejection
falls in the server-error class instead of the Forbidden 403 the spec
prescribes. -/
theorem c8_amended (caller : Gate.Client) (db : List Gate.Row)
    (h : caller.caps.contains Gate.Capability.statusSelf = false) :
    Gate.handle_status_request caller none db =
      .error (.missingPermission .statusSelf) ∧
    Gate.HandlerError.status (.missingPermission .statusSelf) = 500 ∧
    (∀ (auth : Auth) (raw : Str) (db2 : List Gate.Row) (tok : AuthToken)
        (e : Gate.AuthFail),
      AuthToken.from_raw_str raw = .ok tok →
      Gate.Client.with_token auth tok db2 = .error e →
      Gate.auth_middleware auth raw db2 = .error .failedAuth) ∧
    Gate.Rejection.status .failedAuth = 401 ∧
    Gate.Rejection.status .failedAuth ≠
      Gate.HandlerError.status (.missingPermission .statusSelf) := by
  refine ⟨?_, rfl, ?_, rfl, by decide⟩
  · simp [Gate.handle_status_request, has_permission_eq_error h]
  · intro auth raw db2 tok e hp hw
    simp [Gate.auth_middleware, hp, hw]

/-- C8, witness: the amended statement at a concrete caller, plus its
middleware branch at a concrete unknown id. -/
theorem c8_witness :
    Gate.handle_status_request ⟨str ("t"), none, []⟩ none [] =
      .error (.missingPermission .statusSelf) ∧
    Gate.HandlerError.status (.missingPermission .statusSelf) = 500 ∧
    Gate.auth_middleware toyAuth (str ("z_k")) [] = .error .failedAuth ∧
    Gate.Rejection.status .failedAuth = 401 :=
  ⟨(c8_amended ⟨str ("t"), none, []⟩ [] (by decide)).1,
   (c8_amended ⟨str ("t"), none, []⟩ [] (by decide)).2.1,
   (c8_amended ⟨str ("t"), none, []⟩ [] (by decide)).2.2.1 toyAuth (str ("z_k")) []
     ⟨str ("z"), some (str ("k")), none⟩ .rowNotFound (by decide) (by decide),
   (c8_amended ⟨str ("t"), none, []⟩ [] (by decide)).2.2.2.1⟩

/-! ## Claim C10: the health endpoint is exempt from authentication -/

/-- C10: dispatching any request to the health route — any store, any
hasher, and any Authorization header including none at all — runs no token
parse, no verification and no permission check, attaches no client, and
returns 200; every other installed route is wrapped by the authorization
middleware. -/
theorem c10_health_exempt (auth : Auth) (db : List Gate.Row) (header : Option Str) :
    Gate.dispatch auth db ("/health") header = .ok (.health 200) ∧
    Gate.appRouter.find? (fun e => e.path == ("/health")) = some ⟨"/health", false⟩ ∧
    (∀ e ∈ Gate.appRouter, e.path ≠ "/health" → e.authWrapped = true) ∧
    Gate.handle_health_request = .ok 200 := by
  refine ⟨rfl, by decide, by decide, rfl⟩

/-- C10, witness: the exemption at the empty store with no header. -/
theorem c10_witness :
    Gate.dispatch toyAuth [] ("/health") none = .ok (.health 200) ∧
    Gate.appRouter.find? (fun e => e.path == ("/health")) = some ⟨"/health", false⟩ ∧
    (∀ e ∈ Gate.appRouter, e.path ≠ "/health" → e.authWrapped = true) ∧
    Gate.handle_health_request = .ok 200 :=
  c10_health_exempt toyAuth [] none

end ModelRunner
